import Mathlib

/-!
Shallow embedding of the commit-classification and version-bump engine of the
`bump-workspaces` repository (`src/util.ts`), together with theorems settling
the frozen claims about its specification.

File layout: data model, the semantic-version arithmetic (modelled from the
`@std/semver` dependency as used by `src/util.ts`), the commit classifier, the
bump aggregator, the release-note formatting helpers, then the claim theorems.
-/

namespace Bump

/-- TS type `VersionUpdate` (src/util.ts line 19). -/
inductive VersionUpdate
  | major
  | minor
  | patch
  | prerelease
deriving DecidableEq, Repr

/-- TS type `Commit` (src/util.ts lines 21-25). -/
structure Commit where
  subject : String
  body : String
  hash : String
deriving DecidableEq, Repr

/-- TS type `CommitWithTag = Commit & { tag: string }` (src/util.ts line 27). -/
structure CommitWithTag where
  subject : String
  body : String
  hash : String
  tag : String
deriving DecidableEq, Repr

/-- TS type `WorkspaceModule` (src/util.ts lines 31-35); the symbol-keyed
`[pathProp]` property is the `path` field here. -/
structure WorkspaceModule where
  name : String
  version : String
  path : String
deriving DecidableEq, Repr

/-- TS type `VersionBump` (src/util.ts lines 37-42). -/
structure VersionBump where
  module : String
  tag : String
  commit : Commit
  version : VersionUpdate
deriving DecidableEq, Repr

/-- TS type `VersionBumpSummary` (src/util.ts lines 44-48). -/
structure VersionBumpSummary where
  module : String
  version : VersionUpdate
  commits : List CommitWithTag
deriving DecidableEq, Repr

/-- Discriminants of the TS `Diagnostic` tagged union (src/util.ts lines 50-78). -/
inductive DiagnosticType
  | unknown_commit
  | missing_range
  | unknown_range_commit
  | skipped_commit
deriving DecidableEq, Repr

/-- TS `Diagnostic` (src/util.ts lines 50-78): every variant carries the commit
and a reason string, so the union is flattened into a record with its tag. -/
structure Diagnostic where
  type : DiagnosticType
  commit : Commit
  reason : String
deriving DecidableEq, Repr

/-- TS type `VersionUpdateResult` (src/util.ts lines 80-86). `from`/`to` are
reserved words in Lean, hence `fromVer`/`toVer`. -/
structure VersionUpdateResult where
  fromVer : String
  toVer : String
  diff : VersionUpdate
  path : String
  summary : VersionBumpSummary
deriving DecidableEq, Repr

/-- TS `maxVersion` (src/util.ts lines 275-286). -/
def maxVersion (v0 v1 : VersionUpdate) : VersionUpdate :=
  if v0 = .major ∨ v1 = .major then .major
  else if v0 = .minor ∨ v1 = .minor then .minor
  else .patch

/-- TS `TAG_TO_VERSION` (src/util.ts lines 138-149), as an association list so
that the JS object key insertion order (used by `TAG_PRIORITY`) is kept. -/
def TAG_TO_VERSION : List (String × VersionUpdate) :=
  [("BREAKING", .major), ("feat", .minor), ("deprecation", .patch), ("fix", .patch),
   ("perf", .patch), ("docs", .patch), ("style", .patch), ("refactor", .patch),
   ("test", .patch), ("chore", .patch)]

/-- JS `TAG_TO_VERSION[tag]`: `undefined` becomes `none`. -/
def tagToVersion (tag : String) : Option VersionUpdate :=
  TAG_TO_VERSION.lookup tag

/-- TS `TAG_PRIORITY = Object.keys(TAG_TO_VERSION)` (src/util.ts line 153). -/
def TAG_PRIORITY : List String := TAG_TO_VERSION.map Prod.fst

/-- TS `DEFAULT_RANGE_REQUIRED` (src/util.ts lines 155-161). -/
def DEFAULT_RANGE_REQUIRED : List String :=
  ["BREAKING", "feat", "fix", "perf", "deprecation"]

/-- JS `TAG_PRIORITY.indexOf(tag)` (src/util.ts lines 263-264): the index of the
tag in the priority table, or `-1` when the tag is absent. -/
def tagPriority (tag : String) : Int :=
  match TAG_PRIORITY.findIdx? (fun t => t == tag) with
  | some i => (i : Int)
  | none => -1

/-! ### Semantic version arithmetic, modelled from the `@std/semver` dependency

`src/util.ts` imports `parse`, `format` and `increment` from `@std/semver`.
That library is an external dependency (not part of this repository), so the
definitions below model its documented behaviour: versions are
`major.minor.patch[-prerelease][+build]`, numeric fields have no leading
zeroes, prerelease identifiers are numeric or alphanumeric, and `increment`
follows the node-semver rules. -/

/-- A prerelease identifier: numeric or alphanumeric, as in `@std/semver`. -/
inductive PreId
  | num (n : Nat)
  | str (s : String)
deriving DecidableEq, Repr

/-- Parsed semantic version (the `SemVer` record of `@std/semver`). -/
structure SemVer where
  major : Nat
  minor : Nat
  patch : Nat
  prerelease : List PreId
  build : List String
deriving DecidableEq, Repr

/-- Decimal digits to a natural number. -/
def digitsToNat (cs : List Char) : Nat :=
  cs.foldl (fun n c => n * 10 + (c.toNat - 48)) 0

/-- A numeric semver field: digits only, non-empty, no leading zero. -/
def parseNumeric (cs : List Char) : Option Nat :=
  if cs = [] then none
  else if ¬ cs.all Char.isDigit then none
  else if cs.head? = some '0' ∧ cs.length > 1 then none
  else some (digitsToNat cs)

/-- Split a character list at the first occurrence of `sep`; the second
component is `none` when `sep` does not occur. -/
def splitAtFirst (sep : Char) : List Char → (List Char × Option (List Char))
  | [] => ([], none)
  | c :: rest =>
    if c = sep then ([], some rest)
    else
      let r := splitAtFirst sep rest
      (c :: r.1, r.2)

/-- Split a character list on every occurrence of `sep`. -/
def splitOnChar (sep : Char) : List Char → List (List Char)
  | [] => [[]]
  | c :: rest =>
    let r := splitOnChar sep rest
    if c = sep then [] :: r
    else
      match r with
      | [] => [[c]]
      | h :: t => (c :: h) :: t

/-- A prerelease identifier: non-empty, `[0-9A-Za-z-]` only; all-digit
identifiers are numeric and must not have leading zeroes. -/
def parsePreId (cs : List Char) : Option PreId :=
  if cs = [] then none
  else if ¬ cs.all (fun c => c.isAlphanum ∨ c = '-') then none
  else if cs.all Char.isDigit then
    if cs.head? = some '0' ∧ cs.length > 1 then none
    else some (.num (digitsToNat cs))
  else some (.str (String.mk cs))

/-- A build identifier: non-empty, `[0-9A-Za-z-]` only (leading zeroes allowed). -/
def parseBuildId (cs : List Char) : Option String :=
  if cs = [] then none
  else if ¬ cs.all (fun c => c.isAlphanum ∨ c = '-') then none
  else some (String.mk cs)

/-- The `major.minor.patch` core: exactly three numeric fields. -/
def parseCore (cs : List Char) : Option (Nat × Nat × Nat) :=
  match splitOnChar '.' cs with
  | [ma, mi, pa] => do
    let a ← parseNumeric ma
    let b ← parseNumeric mi
    let c ← parseNumeric pa
    some (a, b, c)
  | _ => none

/-- `@std/semver` `parse`: the build part follows the first `+`, the prerelease
part follows the first `-` before that, the rest is the numeric core. The TS
function throws a `TypeError` on invalid input, modelled as `none`. -/
def parseSemVer (s : String) : Option SemVer :=
  let p := splitAtFirst '+' s.data
  let q := splitAtFirst '-' p.1
  do
    let core ← parseCore q.1
    let pre ← match q.2 with
      | none => some ([] : List PreId)
      | some l => (splitOnChar '.' l).mapM parsePreId
    let build ← match p.2 with
      | none => some ([] : List String)
      | some l => (splitOnChar '.' l).mapM parseBuildId
    some ⟨core.1, core.2.1, core.2.2, pre, build⟩

/-- Render one prerelease identifier. -/
def formatPreId : PreId → String
  | .num n => toString n
  | .str s => s

/-- `@std/semver` `format`: `major.minor.patch[-pre][+build]`. -/
def formatSemver (v : SemVer) : String :=
  toString v.major ++ "." ++ toString v.minor ++ "." ++ toString v.patch
    ++ (if v.prerelease = [] then ""
        else "-" ++ String.intercalate "." (v.prerelease.map formatPreId))
    ++ (if v.build = [] then "" else "+" ++ String.intercalate "." v.build)

/-- Bump the last numeric prerelease identifier; `none` when there is none. -/
def bumpLastNum : List PreId → Option (List PreId)
  | [] => none
  | x :: rest =>
    match bumpLastNum rest with
    | some rest2 => some (x :: rest2)
    | none =>
      match x with
      | .num n => some (.num (n + 1) :: rest)
      | .str _ => none

/-- `@std/semver` `pre` helper: bump the last numeric prerelease identifier, or
append `0` when no identifier is numeric. -/
def bumpPrerelease (l : List PreId) : List PreId :=
  match bumpLastNum l with
  | some l2 => l2
  | none => l ++ [.num 0]

/-- `@std/semver` `increment`, with no identifier/build arguments (as called by
`src/util.ts`): a `major`/`minor`/`patch` bump of a matching pre-X version
merely finalizes it, a `prerelease` bump of a non-prerelease version acts as
pre-patch, and the build metadata of the result is empty. -/
def increment (v : SemVer) (release : VersionUpdate) : SemVer :=
  match release with
  | .major =>
    if v.minor ≠ 0 ∨ v.patch ≠ 0 ∨ v.prerelease = [] then ⟨v.major + 1, 0, 0, [], []⟩
    else ⟨v.major, 0, 0, [], []⟩
  | .minor =>
    if v.patch ≠ 0 ∨ v.prerelease = [] then ⟨v.major, v.minor + 1, 0, [], []⟩
    else ⟨v.major, v.minor, 0, [], []⟩
  | .patch =>
    if v.prerelease = [] then ⟨v.major, v.minor, v.patch + 1, [], []⟩
    else ⟨v.major, v.minor, v.patch, [], []⟩
  | .prerelease =>
    if v.prerelease = [] then ⟨v.major, v.minor, v.patch + 1, [.num 0], []⟩
    else ⟨v.major, v.minor, v.patch, bumpPrerelease v.prerelease, []⟩

/-- TS `hasPrerelease` (src/util.ts lines 425-427). -/
def hasPrerelease (v : SemVer) : Bool :=
  !v.prerelease.isEmpty

/-- The message of the error thrown at src/util.ts lines 459-461 (the TS string
interpolates the two versions; only the fixed prefix is modelled). -/
def unexpectedVersionUpdateError : String := "Unexpected manual version update"

/-- TS `calcVersionDiff` (src/util.ts lines 429-462). A throw is modelled as
`Except.error`; a parse failure of either argument is also an error. -/
def calcVersionDiff (newVersionStr oldVersionStr : String) : Except String VersionUpdate :=
  match parseSemVer newVersionStr, parseSemVer oldVersionStr with
  | some newVersion, some oldVersion =>
    if hasPrerelease newVersion then .ok .prerelease
    else if newVersion.major ≠ oldVersion.major then .ok .major
    else if newVersion.minor ≠ oldVersion.minor then .ok .minor
    else if newVersion.patch ≠ oldVersion.patch then .ok .patch
    else if hasPrerelease oldVersion && !hasPrerelease newVersion
        && (newVersion.major == oldVersion.major) && (newVersion.minor == oldVersion.minor)
        && (newVersion.patch == oldVersion.patch) then
      if newVersion.patch ≠ 0 then .ok .patch
      else if newVersion.minor ≠ 0 then .ok .minor
      else if newVersion.major ≠ 0 then .ok .major
      else .error unexpectedVersionUpdateError
    else .error unexpectedVersionUpdateError
  | _, _ => .error "invalid semver"

/-- The diff resolution of the commit-derived branch of `applyVersionBump`
(src/util.ts lines 503-517): a prerelease current version forces `prerelease`;
otherwise at major 0 a `major` bump downgrades to `minor` and a `minor` bump to
`patch`. -/
def resolveDiff (currentVersion : SemVer) (summaryVersion : VersionUpdate) : VersionUpdate :=
  if hasPrerelease currentVersion then .prerelease
  else if currentVersion.major = 0 then
    match summaryVersion with
    | .major => .minor
    | .minor => .patch
    | d => d
  else summaryVersion

/-- TS `applyVersionBump` (src/util.ts lines 465-553), restricted to its pure
version-resolution outcome: the file writes, console output and the textual
`denoJson` substitution are I/O plumbing and are not modelled; the returned
`VersionUpdateResult` (including the mutation of `summary.version`) and the
propagated errors are. -/
def applyVersionBump (summary : VersionBumpSummary) (module : WorkspaceModule)
    (oldModule : Option WorkspaceModule) : Except String VersionUpdateResult :=
  match oldModule with
  | none =>
    (calcVersionDiff module.version "0.0.0").map (fun diff =>
      { fromVer := "0.0.0", toVer := module.version, diff := diff,
        path := module.path, summary := { summary with version := diff } })
  | some oldMod =>
    if oldMod.version ≠ module.version then
      (calcVersionDiff module.version oldMod.version).map (fun diff =>
        { fromVer := oldMod.version, toVer := module.version, diff := diff,
          path := module.path, summary := { summary with version := diff } })
    else
      match parseSemVer module.version with
      | none => .error "invalid semver"
      | some currentVersion =>
        let diff := resolveDiff currentVersion summary.version
        let newVersionStr := formatSemver (increment currentVersion diff)
        .ok { fromVer := module.version, toVer := newVersionStr, diff := diff,
              path := module.path, summary := { summary with version := diff } }

/-! ### The commit classifier (defaultParseCommitMessage)

The subject-line pattern is the JS regex `RE_DEFAULT_PATTERN`
(src/util.ts line 133), anchored at both ends with four groups: a non-empty
tag of characters outside `:()!`, an optional parenthesized scope (one or more
characters other than newline, greedy with backtracking), an optional bang,
then a literal colon-space and the message (no newline). The tag group cannot
be shortened by backtracking (any shorter prefix ends in a non-special
character where a special one is required), so it is the maximal prefix run;
the scope group resolves to the longest parenthesized content whose
continuation still matches. -/

/-- Match `(\!)?: (.*)$`: an optional bang, colon-space, then a
newline-free message running to the end. -/
def matchColonMsg : List Char → Option String
  | ':' :: ' ' :: rest => if rest.contains '\n' then none else some (String.mk rest)
  | _ => none

/-- The continuation after the tag or after the closing parenthesis. -/
def matchTail : List Char → Option (Bool × String)
  | '!' :: rest => (matchColonMsg rest).map (fun m => (true, m))
  | l => (matchColonMsg l).map (fun m => (false, m))

/-- All decompositions `l = inner ++ closing-paren :: tail`, listed with the
shortest `inner` first. -/
def rparenSplits : List Char → List (List Char × List Char)
  | [] => []
  | c :: rest =>
    (if c = ')' then [(([] : List Char), rest)] else [])
      ++ (rparenSplits rest).map (fun p => (c :: p.1, p.2))

/-- Greedy scope matching: the longest non-empty newline-free parenthesized
content whose continuation matches `(\!)?: (.*)$`. -/
def pickScope (l : List Char) : Option (List Char × Bool × String) :=
  ((rparenSplits l).reverse.filterMap (fun p =>
    if p.1 ≠ [] ∧ ¬ p.1.contains '\n' then
      (matchTail p.2).map (fun bm => (p.1, bm.1, bm.2))
    else none)).head?

/-- The anchored match of `RE_DEFAULT_PATTERN` against a commit subject,
returning the captures (tag, optional scope, bang present, message). -/
def reMatch (s : String) : Option (String × Option String × Bool × String) :=
  let cs := s.data
  let tag := cs.takeWhile (fun c => ¬ (c = ':' ∨ c = '(' ∨ c = ')' ∨ c = '!'))
  let rest := cs.dropWhile (fun c => ¬ (c = ':' ∨ c = '(' ∨ c = ')' ∨ c = '!'))
  if tag = [] then none
  else
    match rest with
    | '(' :: afterParen =>
      (match pickScope afterParen with
       | some r => some (String.mk tag, some (String.mk r.1), r.2.1, r.2.2)
       | none => none)
    | _ => (matchTail rest).map (fun bm => (String.mk tag, none, bm.1, bm.2))

/-- JS `module.split(/\s*,\s*/)` (src/util.ts line 192): split on commas,
stripping the whitespace adjacent to each comma; whitespace at the very start
and end of the string is kept (the separator regex must contain a comma). -/
def splitCommas (s : String) : List String :=
  let ps := splitOnChar ',' s.data
  let n := ps.length
  ps.mapIdx (fun i p =>
    let p1 := if 0 < i then p.dropWhile Char.isWhitespace else p
    let p2 := if i + 1 < n then (p1.reverse.dropWhile Char.isWhitespace).reverse else p1
    String.mk p2)

/-- The JS regex `REGEXP_UNSTABLE_SCOPE` (src/util.ts line 134)
`^(unstable\/(.+)|(.+)\/unstable)$`: extract the module name from an
unstable-form scope, trying the `unstable/x` alternative first. -/
def unstableMatch (m : String) : Option String :=
  let cs := m.data
  let head9 := cs.take 9
  let after9 := cs.drop 9
  if head9 = "unstable/".data ∧ after9 ≠ [] ∧ ¬ after9.contains '\n' then
    some (String.mk after9)
  else
    let n := cs.length
    let stem := cs.take (n - 9)
    let tail9 := cs.drop (n - 9)
    if tail9 = "/unstable".data ∧ 9 < n ∧ ¬ stem.contains '\n' then
      some (String.mk stem)
    else none

/-- Scope resolution (src/util.ts lines 186-196): the wildcard scope targets
every known module, otherwise the scope list is split on commas. -/
def scopeEntries (scope : String) (workspaceModules : List WorkspaceModule) : List String :=
  if scope = "*" then workspaceModules.map (fun m => m.name) else splitCommas scope

/-- The TS return type `VersionBump[] | Diagnostic`. -/
inductive ParseResult
  | bumps (l : List VersionBump)
  | diagnostic (d : Diagnostic)
deriving DecidableEq, Repr

/-- TS `defaultParseCommitMessage` (src/util.ts lines 171-245). -/
def defaultParseCommitMessage (commit : Commit)
    (workspaceModules : List WorkspaceModule) : ParseResult :=
  match reMatch commit.subject with
  | none => .diagnostic ⟨.unknown_commit, commit,
      "The commit message does not match the default pattern."⟩
  | some (tag, scopeOpt, bang, _message) =>
    let modules0 : List String :=
      match scopeOpt with
      | some scope => scopeEntries scope workspaceModules
      | none => []
    let resolved : Sum (List String) Diagnostic :=
      if modules0 = [] then
        match workspaceModules with
        | [onlyModule] => .inl [onlyModule.name]
        | _ =>
          if tag ∈ DEFAULT_RANGE_REQUIRED then
            .inr ⟨.missing_range, commit, "The commit message does not specify a module."⟩
          else
            .inr ⟨.skipped_commit, commit, "The commit message does not specify a module."⟩
      else .inl modules0
    match resolved with
    | .inr d => .diagnostic d
    | .inl modules =>
      match (if bang then some VersionUpdate.major else tagToVersion tag) with
      | none => .diagnostic ⟨.unknown_commit, commit, "Unknown commit tag: " ++ tag ++ "."⟩
      | some version =>
        .bumps (modules.map (fun m =>
          match unstableMatch m with
          | some inner => ⟨inner, tag, commit, .patch⟩
          | none => ⟨m, tag, commit, version⟩))

/-! ### The bump aggregator (summarizeVersionBumpsByModule) -/

/-- The commit-with-tag pushed at src/util.ts line 259:
`{ ...versionBump.commit, tag: versionBump.tag }`. -/
def mkCT (b : VersionBump) : CommitWithTag :=
  ⟨b.commit.subject, b.commit.body, b.commit.hash, b.tag⟩

/-- One step of the accumulation loop of `summarizeVersionBumpsByModule`
(src/util.ts lines 251-260): update the existing entry for the bump's module
(maximum severity, commit appended), or append a fresh entry at the end of the
record (JS object key insertion order). A fresh entry starts as
`{module, version, commits: []}` and is immediately updated, hence its
severity `maxVersion b.version b.version`. -/
def upsert (b : VersionBump) : List VersionBumpSummary → List VersionBumpSummary
  | [] => [⟨b.module, maxVersion b.version b.version, [mkCT b]⟩]
  | s :: rest =>
    if s.module = b.module then
      ⟨s.module, maxVersion s.version b.version, s.commits ++ [mkCT b]⟩ :: rest
    else s :: upsert b rest

/-- The grouping loop of `summarizeVersionBumpsByModule` over the whole input. -/
def buildSummaries (bumps : List VersionBump) : List VersionBumpSummary :=
  bumps.foldl (fun acc b => upsert b acc) []

/-- The commit comparator of src/util.ts lines 262-269 as the total preorder
it sorts by: ascending `tagPriority`, so unknown tags (indexOf -1) come first.
JS `Array.prototype.sort` is a stable sort consistent with the comparator;
insertion sort by this relation produces exactly that stable result. -/
def priLe (a b : CommitWithTag) : Prop := tagPriority a.tag ≤ tagPriority b.tag

instance : DecidableRel priLe := fun a b =>
  inferInstanceAs (Decidable (tagPriority a.tag ≤ tagPriority b.tag))

instance : IsTotal CommitWithTag priLe := ⟨fun a b => Int.le_total _ _⟩

instance : IsTrans CommitWithTag priLe := ⟨fun _ _ _ h1 h2 => le_trans h1 h2⟩

/-- The `summary.commits.sort(...)` call (src/util.ts lines 262-269). -/
def sortCommits (cs : List CommitWithTag) : List CommitWithTag :=
  List.insertionSort priLe cs

/-- The summary comparator of src/util.ts line 272 (`a.module < b.module ? -1
: 1`) as the total preorder it sorts by; module names within the record are
pairwise distinct, so the JS comparator (which never returns 0) still yields
the unique ascending order. -/
def modLe (a b : VersionBumpSummary) : Prop := a.module ≤ b.module

instance : DecidableRel modLe := fun a b =>
  inferInstanceAs (Decidable (a.module ≤ b.module))

instance : IsTotal VersionBumpSummary modLe := ⟨fun a b => le_total _ _⟩

instance : IsTrans VersionBumpSummary modLe := ⟨fun _ _ _ h1 h2 => le_trans h1 h2⟩

/-- TS `summarizeVersionBumpsByModule` (src/util.ts lines 247-273): group by
module in insertion order, sort each module's commits by tag priority
(stable), and return the summaries sorted by module name. -/
def summarizeVersionBumpsByModule (bumps : List VersionBump) : List VersionBumpSummary :=
  List.insertionSort modLe
    ((buildSummaries bumps).map (fun s => ⟨s.module, s.version, sortCommits s.commits⟩))

/-- The bumps that target one module, in input order. -/
def bumpsFor (bumps : List VersionBump) (m : String) : List VersionBump :=
  bumps.filter (fun b => b.module == m)

/-- The aggregated severity of a bump list: the `maxVersion` fold of its
versions seeded with `patch` (`maxVersion v v = maxVersion patch v`, so this
matches the loop's first-update seed on non-empty lists). -/
def aggVersion (f : List VersionBump) : VersionUpdate :=
  (f.map (fun b => b.version)).foldl maxVersion .patch

/-- JS `result[module]` access on the grouping record: the first (unique)
entry for the module. -/
def findEntry (m : String) : List VersionBumpSummary → Option VersionBumpSummary
  | [] => none
  | s :: rest => if s.module = m then some s else findEntry m rest



/-! ### Release note formatting helpers -/

/-- JS truthiness of the optional string parameters of the formatting helpers
(src/util.ts lines 697-720): `undefined` and the empty string are falsy. -/
def jsTruthy : Option String → Bool
  | none => false
  | some s => s != ""

/-- TS `formatVersionWithLink` (src/util.ts lines 697-707). -/
def formatVersionWithLink (version : String) (githubRepo fromTag toTag : Option String) : String :=
  if jsTruthy githubRepo && jsTruthy fromTag && jsTruthy toTag then
    "[" ++ version ++ "](https://github.com/" ++ githubRepo.getD "" ++ "/compare/"
      ++ fromTag.getD "" ++ "..." ++ toTag.getD "" ++ ")"
  else version

/-- One line of TS `formatCommitList` (src/util.ts lines 713-719); the
7-character short hash is `hash.substring(0, 7)`. -/
def commitLine (c : CommitWithTag) (githubRepo : Option String) : String :=
  let shortHash := String.mk (c.hash.data.take 7)
  let commitLink :=
    if jsTruthy githubRepo then
      " ([" ++ shortHash ++ "](https://github.com/" ++ githubRepo.getD ""
        ++ "/commit/" ++ c.hash ++ "))"
    else ""
  "- " ++ c.subject ++ commitLink ++ "\n"

/-- TS `formatCommitList` (src/util.ts lines 709-720): the joined lines. -/
def formatCommitList (commits : List CommitWithTag) (githubRepo : Option String) : String :=
  String.join (commits.map (fun c => commitLine c githubRepo))

/-- Modelled from the spec wording of claim C9: a GitHub repository is
configured when a non-empty repository string is supplied. -/
def githubRepoConfigured (r : Option String) : Bool :=
  match r with
  | none => false
  | some s => s != ""

/-- Modelled from the spec wording of claim C9: a tag is available when it is
a non-empty string. -/
def tagAvailable (t : Option String) : Bool :=
  match t with
  | none => false
  | some s => s != ""

/-- Modelled from the spec wording of claim C9: the compare link
`[version](https://github.com/repo/compare/fromTag...toTag)`. -/
def specCompareLink (version repo fromTag toTag : String) : String :=
  "[" ++ version ++ "](https://github.com/" ++ repo ++ "/compare/"
    ++ fromTag ++ "..." ++ toTag ++ ")"

/-- Modelled from the spec wording of claim C9: the commit line is a dash and
the subject followed, exactly when a repository is configured, by a link whose
display text is the first 7 characters of the hash and whose target holds the
full hash. -/
def specCommitLine (c : CommitWithTag) (r : Option String) : String :=
  "- " ++ c.subject
    ++ (if githubRepoConfigured r then
          " ([" ++ String.mk (c.hash.data.take 7) ++ "](https://github.com/"
            ++ r.getD "" ++ "/commit/" ++ c.hash ++ "))"
        else "")
    ++ "\n"

/-! ### Claim theorems: semantic version arithmetic and the version resolver -/

/-- C1 (amended): for every pair of valid semver strings where the old version
has a prerelease component, the new one has none, and the three numeric fields
agree, `calcVersionDiff` returns `patch` if new's patch is nonzero, else
`minor` if new's minor is nonzero, else `major` if new's major is nonzero; when
all three fields are zero (old = "0.0.0-rc.1", new = "0.0.0") it throws the
unexpected-manual-version-update error instead of returning a value. -/
theorem calcVersionDiff_finalize_prerelease
    (snew sold : String) (vnew vold : SemVer)
    (hn : parseSemVer snew = some vnew) (ho : parseSemVer sold = some vold)
    (hpre : vold.prerelease ≠ []) (hnop : vnew.prerelease = [])
    (hma : vnew.major = vold.major) (hmi : vnew.minor = vold.minor)
    (hpa : vnew.patch = vold.patch) :
    calcVersionDiff snew sold =
      (if vnew.patch ≠ 0 then .ok .patch
       else if vnew.minor ≠ 0 then .ok .minor
       else if vnew.major ≠ 0 then .ok .major
       else .error unexpectedVersionUpdateError) := by
  unfold calcVersionDiff
  rw [hn, ho]
  have h1 : hasPrerelease vnew = false := by
    simp [hasPrerelease, hnop]
  have h2 : hasPrerelease vold = true := by
    simp [hasPrerelease, List.isEmpty_iff, hpre]
  simp [h1, h2, hma, hmi, hpa]

/-- Witness for C1's theorem at new = "1.2.3", old = "1.2.3-rc.1". -/
theorem calcVersionDiff_finalize_prerelease_witness :
    calcVersionDiff "1.2.3" "1.2.3-rc.1" = .ok .patch := by
  have h := calcVersionDiff_finalize_prerelease "1.2.3" "1.2.3-rc.1"
    ⟨1, 2, 3, [], []⟩ ⟨1, 2, 3, [.str "rc", .num 1], []⟩ (by decide) (by decide)
    (by decide) (by decide) (by decide) (by decide) (by decide)
  simpa using h

/-- C1 counterexample: old = "0.0.0-rc.1" and new = "0.0.0" are valid semver
strings satisfying the claim's hypotheses (old has a prerelease, new has none,
all numeric fields equal), yet `calcVersionDiff` throws instead of returning a
value, contradicting the claim as stated. -/
theorem calcVersionDiff_zero_finalize_throws :
    parseSemVer "0.0.0" = some ⟨0, 0, 0, [], []⟩ ∧
    parseSemVer "0.0.0-rc.1" = some ⟨0, 0, 0, [.str "rc", .num 1], []⟩ ∧
    calcVersionDiff "0.0.0" "0.0.0-rc.1" = .error unexpectedVersionUpdateError :=
  ⟨by decide, by decide, rfl⟩

/-- C2: `calcVersionDiff` on two identical non-prerelease valid version strings
throws the unexpected-manual-version-update error, and `applyVersionBump`
does not catch `calcVersionDiff` errors in its new-module branch nor in its
manual-edit branch: they propagate to the caller. -/
theorem calcVersionDiff_identical_throws :
    (∀ (s : String) (v : SemVer), parseSemVer s = some v → v.prerelease = [] →
      calcVersionDiff s s = .error unexpectedVersionUpdateError) ∧
    (∀ (summary : VersionBumpSummary) (module : WorkspaceModule) (e : String),
      calcVersionDiff module.version "0.0.0" = .error e →
      applyVersionBump summary module none = .error e) ∧
    (∀ (summary : VersionBumpSummary) (module oldMod : WorkspaceModule) (e : String),
      oldMod.version ≠ module.version →
      calcVersionDiff module.version oldMod.version = .error e →
      applyVersionBump summary module (some oldMod) = .error e) := by
  refine ⟨?_, ?_, ?_⟩
  · intro s v h hp
    unfold calcVersionDiff
    rw [h]
    simp [hasPrerelease, hp]
  · intro summary module e h
    unfold applyVersionBump
    rw [h]
    rfl
  · intro summary module oldMod e hne h
    unfold applyVersionBump
    simp [hne, h, Except.map]

/-- Witness for C2's theorem: v = "1.2.3", and a new-module bump whose current
version is "0.0.0" (so `calcVersionDiff "0.0.0" "0.0.0"` throws inside). -/
theorem calcVersionDiff_identical_throws_witness :
    calcVersionDiff "1.2.3" "1.2.3" = .error unexpectedVersionUpdateError ∧
    applyVersionBump ⟨"m", .patch, []⟩ ⟨"m", "0.0.0", "p"⟩ none
      = .error unexpectedVersionUpdateError := by
  constructor
  · exact calcVersionDiff_identical_throws.1 "1.2.3" ⟨1, 2, 3, [], []⟩ (by decide) rfl
  · exact calcVersionDiff_identical_throws.2.1 ⟨"m", .patch, []⟩ ⟨"m", "0.0.0", "p"⟩ _ rfl

/-- C7: in the commit-derived case (a previous record exists and its version
equals the current one) the resolved diff is `prerelease` whenever the current
version has a non-empty prerelease component, else at major 0 an aggregated
`major` becomes `minor` and `minor` becomes `patch` (`patch` stays), and the
target version is the standard semver increment of the current version by the
resolved diff; the summary's version is overwritten with that diff. -/
theorem applyVersionBump_commit_derived
    (summary : VersionBumpSummary) (module oldMod : WorkspaceModule) (v : SemVer)
    (heq : oldMod.version = module.version)
    (hv : parseSemVer module.version = some v) :
    applyVersionBump summary module (some oldMod) =
      .ok { fromVer := module.version,
            toVer := formatSemver (increment v (resolveDiff v summary.version)),
            diff := resolveDiff v summary.version, path := module.path,
            summary := { summary with version := resolveDiff v summary.version } } ∧
    (v.prerelease ≠ [] → resolveDiff v summary.version = .prerelease) ∧
    (v.prerelease = [] → v.major = 0 →
      resolveDiff v summary.version =
        (match summary.version with
         | .major => .minor
         | .minor => .patch
         | d => d)) ∧
    (v.prerelease = [] → v.major ≠ 0 → resolveDiff v summary.version = summary.version) := by
  refine ⟨?_, ?_, ?_, ?_⟩
  · unfold applyVersionBump
    simp [heq, hv]
  · intro hp
    unfold resolveDiff
    simp [hasPrerelease, List.isEmpty_iff, hp]
  · intro hp h0
    unfold resolveDiff
    simp [hasPrerelease, hp, h0]
  · intro hp h0
    unfold resolveDiff
    simp [hasPrerelease, hp, h0]

/-- Witness for C7's theorem: module "foo" at "0.0.0" with aggregated `major`
resolves to from "0.0.0", to "0.1.0", diff `minor` (the 0.x downgrade rule). -/
theorem applyVersionBump_commit_derived_witness :
    applyVersionBump ⟨"foo", .major, []⟩ ⟨"foo", "0.0.0", "p"⟩ (some ⟨"foo", "0.0.0", "q"⟩)
      = .ok ⟨"0.0.0", "0.1.0", .minor, "p", ⟨"foo", .minor, []⟩⟩ := by
  have h := (applyVersionBump_commit_derived ⟨"foo", .major, []⟩
    ⟨"foo", "0.0.0", "p"⟩ ⟨"foo", "0.0.0", "q"⟩ ⟨0, 0, 0, [], []⟩ rfl (by decide)).1
  exact h.trans rfl

/-- C8: in the manual-edit case (a previous record exists and its version
differs from the current one) the result is from = previous version, to =
current version verbatim (not incremented), diff = calcVersionDiff(current,
previous), and the aggregated severity in the summary is overwritten with that
diff. -/
theorem applyVersionBump_manual_edit
    (summary : VersionBumpSummary) (module oldMod : WorkspaceModule) (d : VersionUpdate)
    (hne : oldMod.version ≠ module.version)
    (hd : calcVersionDiff module.version oldMod.version = .ok d) :
    applyVersionBump summary module (some oldMod) =
      .ok { fromVer := oldMod.version, toVer := module.version, diff := d,
            path := module.path, summary := { summary with version := d } } := by
  unfold applyVersionBump
  simp [hne, hd, Except.map]

/-- Witness for C8's theorem: previous "1.0.0", current "2.0.0", aggregated
severity `patch` discarded in favour of the computed `major`. -/
theorem applyVersionBump_manual_edit_witness :
    applyVersionBump ⟨"m", .patch, []⟩ ⟨"m", "2.0.0", "p"⟩ (some ⟨"m", "1.0.0", "q"⟩)
      = .ok ⟨"1.0.0", "2.0.0", .major, "p", ⟨"m", .major, []⟩⟩ :=
  applyVersionBump_manual_edit ⟨"m", .patch, []⟩ ⟨"m", "2.0.0", "p"⟩ ⟨"m", "1.0.0", "q"⟩
    .major (by decide) rfl

/-! ### Claim theorems: the commit classifier -/

/-- C3 (amended): for a pattern-matching commit with no scope: against exactly
one known module it yields one intent targeting that module (with the
unstable-scope normalization applied to the module name) provided the tag is
in the severity table or a `!` marker is present, while an unrecognized tag
without `!` yields an unknown_commit diagnostic; against two or more known
modules it yields a missing_range diagnostic when the tag is one of BREAKING,
feat, fix, perf, deprecation, and a skipped_commit diagnostic for any other
tag. -/
theorem defaultParseCommitMessage_scopeless
    (commit : Commit) (tag msg : String) (bang : Bool)
    (h : reMatch commit.subject = some (tag, none, bang, msg)) :
    (∀ m : WorkspaceModule,
      defaultParseCommitMessage commit [m] =
        match (if bang then some VersionUpdate.major else tagToVersion tag) with
        | none => .diagnostic ⟨.unknown_commit, commit, "Unknown commit tag: " ++ tag ++ "."⟩
        | some version =>
          .bumps [match unstableMatch m.name with
                  | some inner => ⟨inner, tag, commit, .patch⟩
                  | none => ⟨m.name, tag, commit, version⟩]) ∧
    (∀ mods : List WorkspaceModule, 2 ≤ mods.length →
      defaultParseCommitMessage commit mods =
        if tag ∈ DEFAULT_RANGE_REQUIRED then
          .diagnostic ⟨.missing_range, commit, "The commit message does not specify a module."⟩
        else
          .diagnostic ⟨.skipped_commit, commit, "The commit message does not specify a module."⟩) := by
  constructor
  · intro m
    unfold defaultParseCommitMessage
    rw [h]
    cases hv : (if bang then some VersionUpdate.major else tagToVersion tag) <;> simp [hv]
  · intro mods hlen
    rcases mods with _ | ⟨a, _ | ⟨b, rest⟩⟩
    · simp at hlen
    · simp at hlen
    · unfold defaultParseCommitMessage
      rw [h]
      by_cases htag : tag ∈ DEFAULT_RANGE_REQUIRED <;> simp [htag]

/-- Witness for C3's theorem at "chore: tidy" against one and two modules. -/
theorem defaultParseCommitMessage_scopeless_witness :
    reMatch "chore: tidy" = some ("chore", none, false, "tidy") ∧
    defaultParseCommitMessage ⟨"chore: tidy", "", "a"⟩ [⟨"foo", "1.0.0", "p"⟩]
      = .bumps [⟨"foo", "chore", ⟨"chore: tidy", "", "a"⟩, .patch⟩] ∧
    defaultParseCommitMessage ⟨"chore: tidy", "", "a"⟩
        [⟨"foo", "1.0.0", "p"⟩, ⟨"bar", "1.0.0", "q"⟩]
      = .diagnostic ⟨.skipped_commit, ⟨"chore: tidy", "", "a"⟩,
          "The commit message does not specify a module."⟩ := by
  have h := defaultParseCommitMessage_scopeless ⟨"chore: tidy", "", "a"⟩
    "chore" "tidy" false (by decide)
  refine ⟨by decide, ?_, ?_⟩
  · exact (h.1 ⟨"foo", "1.0.0", "p"⟩).trans (by decide)
  · exact (h.2 [⟨"foo", "1.0.0", "p"⟩, ⟨"bar", "1.0.0", "q"⟩] (by decide)).trans (by decide)

/-- C3 counterexample: the scopeless commit "foobar: tidy" matches the
conventional pattern and exactly one module is known, yet
defaultParseCommitMessage returns an unknown_commit diagnostic rather than an
intent targeting that module (tag validation still applies). -/
theorem defaultParseCommitMessage_scopeless_counterexample :
    reMatch "foobar: tidy" = some ("foobar", none, false, "tidy") ∧
    defaultParseCommitMessage ⟨"foobar: tidy", "", "d"⟩ [⟨"foo", "1.0.0", "p"⟩]
      = .diagnostic ⟨.unknown_commit, ⟨"foobar: tidy", "", "d"⟩,
          "Unknown commit tag: foobar."⟩ := by decide

/-- C4 (amended): for a pattern-matching commit carrying a scope, a trailing
`!` forces version `major` for every produced intent whose scope entry is not
of the unstable form (unstable/x or x/unstable), even for tags absent from the
severity table; unstable-form scope entries always produce `patch` intents
(the unstable normalization overrides both `!` and the tag table); without `!`
the version comes from the fixed tag table; and an unrecognized tag without
`!` yields an unknown_commit diagnostic even though a scope is present. -/
theorem defaultParseCommitMessage_scoped
    (commit : Commit) (tag scope msg : String) (bang : Bool)
    (mods : List WorkspaceModule)
    (h : reMatch commit.subject = some (tag, some scope, bang, msg)) :
    (∀ version, (if bang then some VersionUpdate.major else tagToVersion tag) = some version →
      scopeEntries scope mods ≠ [] →
      defaultParseCommitMessage commit mods =
        .bumps ((scopeEntries scope mods).map (fun m =>
          match unstableMatch m with
          | some inner => ⟨inner, tag, commit, .patch⟩
          | none => ⟨m, tag, commit, version⟩))) ∧
    (bang = false → tagToVersion tag = none → scopeEntries scope mods ≠ [] →
      defaultParseCommitMessage commit mods =
        .diagnostic ⟨.unknown_commit, commit, "Unknown commit tag: " ++ tag ++ "."⟩) := by
  constructor
  · intro version hv hne
    unfold defaultParseCommitMessage
    rw [h]
    simp [hne, hv]
  · intro hb ht hne
    subst hb
    unfold defaultParseCommitMessage
    rw [h]
    simp [hne, ht]

/-- Witness for C4's theorem: a `!` on an unknown tag still yields `major`
intents, and an unknown tag without `!` yields unknown_commit despite the
scope. -/
theorem defaultParseCommitMessage_scoped_witness :
    defaultParseCommitMessage ⟨"weird(foo)!: x", "", "h"⟩ [⟨"m", "1.0.0", "p"⟩]
      = .bumps [⟨"foo", "weird", ⟨"weird(foo)!: x", "", "h"⟩, .major⟩] ∧
    defaultParseCommitMessage ⟨"zzz(foo): x", "", "h"⟩ [⟨"m", "1.0.0", "p"⟩]
      = .diagnostic ⟨.unknown_commit, ⟨"zzz(foo): x", "", "h"⟩,
          "Unknown commit tag: zzz."⟩ := by
  constructor
  · exact ((defaultParseCommitMessage_scoped ⟨"weird(foo)!: x", "", "h"⟩ "weird" "foo" "x"
      true [⟨"m", "1.0.0", "p"⟩] (by decide)).1 VersionUpdate.major (by decide)
      (by decide)).trans (by decide)
  · exact ((defaultParseCommitMessage_scoped ⟨"zzz(foo): x", "", "h"⟩ "zzz" "foo" "x"
      false [⟨"m", "1.0.0", "p"⟩] (by decide)).2 rfl (by decide) (by decide)).trans (by decide)

/-- C4 counterexample: "fix(unstable/foo)!: x" matches with a scope and a
trailing `!`, yet the produced intent's version is `patch`, not `major`: the
unstable-scope normalization overrides the breaking-change marker. -/
theorem defaultParseCommitMessage_scoped_counterexample :
    reMatch "fix(unstable/foo)!: x" = some ("fix", some "unstable/foo", true, "x") ∧
    defaultParseCommitMessage ⟨"fix(unstable/foo)!: x", "", "h"⟩ [⟨"foo", "1.0.0", "p"⟩]
      = .bumps [⟨"foo", "fix", ⟨"fix(unstable/foo)!: x", "", "h"⟩, .patch⟩] ∧
    VersionUpdate.patch ≠ VersionUpdate.major := by decide

/-- C10: a scopeless commit with no `!` marker and a tag absent from the
severity table, classified against exactly one known module, yields an
unknown_commit diagnostic ("Unknown commit tag"), not a skipped_commit: the
single-package auto-targeting happens before tag validation. -/
theorem defaultParseCommitMessage_single_module_unknown_tag
    (commit : Commit) (tag msg : String) (m : WorkspaceModule)
    (h : reMatch commit.subject = some (tag, none, false, msg))
    (ht : tagToVersion tag = none) :
    defaultParseCommitMessage commit [m] =
      .diagnostic ⟨.unknown_commit, commit, "Unknown commit tag: " ++ tag ++ "."⟩ := by
  unfold defaultParseCommitMessage
  rw [h]
  simp [ht]

/-- Witness for C10's theorem at "mytag: x" against a single module. -/
theorem defaultParseCommitMessage_single_module_unknown_tag_witness :
    defaultParseCommitMessage ⟨"mytag: x", "", "h"⟩ [⟨"solo", "1.0.0", "p"⟩]
      = .diagnostic ⟨.unknown_commit, ⟨"mytag: x", "", "h"⟩,
          "Unknown commit tag: mytag."⟩ := by
  exact (defaultParseCommitMessage_single_module_unknown_tag ⟨"mytag: x", "", "h"⟩
    "mytag" "x" ⟨"solo", "1.0.0", "p"⟩ (by decide) (by decide)).trans (by decide)

/-! ### Aggregator lemmas -/

/-- `maxVersion v v` equals `maxVersion patch v` (only `prerelease` is not a
fixed point, both sides giving `patch`). -/
theorem maxVersion_self_eq (v : VersionUpdate) : maxVersion v v = maxVersion .patch v := by
  cases v <;> rfl

/-- Folding the grouping step over `l ++ [b]` is one `upsert` after folding
over `l`. -/
theorem buildSummaries_append (l : List VersionBump) (b : VersionBump) :
    buildSummaries (l ++ [b]) = upsert b (buildSummaries l) := by
  simp [buildSummaries, List.foldl_append]

/-- `upsert` updates exactly the entry of the bump's module. -/
theorem findEntry_upsert (b : VersionBump) (acc : List VersionBumpSummary) (m : String) :
    findEntry m (upsert b acc) =
      if b.module = m then
        some (match findEntry m acc with
              | some s => ⟨s.module, maxVersion s.version b.version, s.commits ++ [mkCT b]⟩
              | none => ⟨b.module, maxVersion b.version b.version, [mkCT b]⟩)
      else findEntry m acc := by
  induction acc with
  | nil =>
    by_cases h : b.module = m <;> simp [upsert, findEntry, h]
  | cons s rest ih =>
    by_cases hs : s.module = b.module
    · by_cases hm : b.module = m
      · simp [upsert, findEntry, hs, hm, hs.trans hm]
      · have hsm : s.module ≠ m := fun hcon => hm (hs ▸ hcon)
        simp [upsert, findEntry, hs, hm, hsm]
    · by_cases hsm : s.module = m
      · have hm : b.module ≠ m := fun hcon => hs (hsm.trans hcon.symm)
        simp [upsert, findEntry, hs, hsm, hm, Ne.symm hm]
      · simp [upsert, findEntry, hs, hsm, ih]

/-- `upsert` keeps the module-name list, appending the bump's module only when
it is new. -/
theorem map_module_upsert (b : VersionBump) (acc : List VersionBumpSummary) :
    (upsert b acc).map (fun s => s.module) =
      if b.module ∈ acc.map (fun s => s.module) then acc.map (fun s => s.module)
      else acc.map (fun s => s.module) ++ [b.module] := by
  induction acc with
  | nil => simp [upsert]
  | cons s rest ih =>
    by_cases hs : s.module = b.module
    · simp [upsert, hs]
    · have hne : b.module ≠ s.module := fun hcon => hs hcon.symm
      by_cases hmem : b.module ∈ rest.map (fun s => s.module) <;>
        simp [upsert, hs, hne, hmem, ih]

/-- The grouping record has pairwise distinct module names. -/
theorem buildSummaries_nodup (bumps : List VersionBump) :
    ((buildSummaries bumps).map (fun s => s.module)).Nodup := by
  induction bumps using List.reverseRecOn with
  | nil => simp [buildSummaries]
  | append_singleton l b ih =>
    rw [buildSummaries_append, map_module_upsert]
    by_cases hmem : b.module ∈ (buildSummaries l).map (fun s => s.module)
    · simpa [hmem] using ih
    · simp [hmem, List.nodup_append, ih]

/-- Filtering `l ++ [b]` for a module appends `b` exactly when it targets it. -/
theorem bumpsFor_append (l : List VersionBump) (b : VersionBump) (m : String) :
    bumpsFor (l ++ [b]) m = bumpsFor l m ++ (if b.module = m then [b] else []) := by
  by_cases h : b.module = m <;> simp [bumpsFor, List.filter_append, h]

/-- Aggregating one more bump takes the `maxVersion` with its severity. -/
theorem aggVersion_append_one (f : List VersionBump) (b : VersionBump) :
    aggVersion (f ++ [b]) = maxVersion (aggVersion f) b.version := by
  simp [aggVersion, List.foldl_append]

/-- The grouped entry of a module: aggregated severity and that module's
commits in input order. -/
theorem findEntry_buildSummaries (bumps : List VersionBump) (m : String) :
    findEntry m (buildSummaries bumps) =
      if bumpsFor bumps m = [] then none
      else some ⟨m, aggVersion (bumpsFor bumps m), (bumpsFor bumps m).map mkCT⟩ := by
  induction bumps using List.reverseRecOn with
  | nil => simp [buildSummaries, findEntry, bumpsFor]
  | append_singleton l b ih =>
    rw [buildSummaries_append, findEntry_upsert, ih, bumpsFor_append]
    by_cases hm : b.module = m
    · subst hm
      by_cases he : bumpsFor l b.module = []
      · simp [he, aggVersion, maxVersion_self_eq]
      · simp [he, aggVersion_append_one]
    · simp [hm]

/-- In a record with distinct module names, the lookup of a member entry's
module finds that entry. -/
theorem findEntry_of_mem (acc : List VersionBumpSummary)
    (hnd : (acc.map (fun s => s.module)).Nodup) (s : VersionBumpSummary) (h : s ∈ acc) :
    findEntry s.module acc = some s := by
  induction acc with
  | nil => simp at h
  | cons a rest ih =>
    rcases List.mem_cons.mp h with h1 | h1
    · subst h1
      simp [findEntry]
    · have hnd2 : (rest.map (fun s => s.module)).Nodup := by
        simpa using hnd.of_cons
      have hne : a.module ≠ s.module := by
        intro hcon
        have : a.module ∈ rest.map (fun s => s.module) :=
          hcon ▸ List.mem_map_of_mem _ h1
        simp [List.nodup_cons] at hnd
        exact hnd.1 _ h1 hcon.symm
      simp [findEntry, hne, ih hnd2 h1]

/-- A found entry belongs to the record and carries the searched module. -/
theorem findEntry_mem {m : String} {acc : List VersionBumpSummary} {e : VersionBumpSummary}
    (h : findEntry m acc = some e) : e ∈ acc ∧ e.module = m := by
  induction acc with
  | nil => cases h
  | cons a rest ih =>
    by_cases ha : a.module = m
    · rw [findEntry, if_pos ha] at h
      cases h
      exact ⟨List.mem_cons_self _ _, ha⟩
    · rw [findEntry, if_neg ha] at h
      exact ⟨List.mem_cons_of_mem _ (ih h).1, (ih h).2⟩

/-- A module appears in the grouping record exactly when some bump targets it. -/
theorem mem_names_iff (bumps : List VersionBump) (m : String) :
    m ∈ (buildSummaries bumps).map (fun s => s.module) ↔ bumpsFor bumps m ≠ [] := by
  constructor
  · intro h
    obtain ⟨s, hs, rfl⟩ := List.mem_map.mp h
    have hfind := findEntry_of_mem _ (buildSummaries_nodup bumps) s hs
    rw [findEntry_buildSummaries] at hfind
    by_cases he : bumpsFor bumps s.module = []
    · rw [if_pos he] at hfind
      cases hfind
    · exact he
  · intro h
    have hfind : findEntry m (buildSummaries bumps)
        = some ⟨m, aggVersion (bumpsFor bumps m), (bumpsFor bumps m).map mkCT⟩ := by
      rw [findEntry_buildSummaries, if_neg h]
    obtain ⟨hmem, hmod⟩ := findEntry_mem hfind
    exact hmod ▸ List.mem_map_of_mem _ hmem

/-- Every entry of the grouping record has the aggregated severity and the
input-order commits of its module. -/
theorem mem_buildSummaries_eq (bumps : List VersionBump) (s : VersionBumpSummary)
    (h : s ∈ buildSummaries bumps) :
    s = ⟨s.module, aggVersion (bumpsFor bumps s.module), (bumpsFor bumps s.module).map mkCT⟩ := by
  have hfind := findEntry_of_mem _ (buildSummaries_nodup bumps) s h
  rw [findEntry_buildSummaries] at hfind
  by_cases he : bumpsFor bumps s.module = []
  · rw [if_pos he] at hfind
    cases hfind
  · rw [if_neg he] at hfind
    exact (Option.some.inj hfind).symm

/-- The summaries list is a permutation of the per-commit-sorted grouping
record. -/
theorem summarize_perm_buildMap (bumps : List VersionBump) :
    (summarizeVersionBumpsByModule bumps).Perm
      ((buildSummaries bumps).map
        (fun s => (⟨s.module, s.version, sortCommits s.commits⟩ : VersionBumpSummary))) :=
  List.perm_insertionSort modLe _

/-- Every produced summary has a non-empty bump set, the aggregated severity,
and the priority-sorted commits of its module. -/
theorem mem_summarize {bumps : List VersionBump} {s : VersionBumpSummary}
    (h : s ∈ summarizeVersionBumpsByModule bumps) :
    bumpsFor bumps s.module ≠ [] ∧
    s.version = aggVersion (bumpsFor bumps s.module) ∧
    s.commits = sortCommits ((bumpsFor bumps s.module).map mkCT) := by
  have hX := (summarize_perm_buildMap bumps).subset h
  obtain ⟨t, ht, rfl⟩ := List.mem_map.mp hX
  have h3 := mem_buildSummaries_eq bumps t ht
  refine ⟨?_, ?_, ?_⟩
  · exact (mem_names_iff bumps t.module).mp (List.mem_map_of_mem _ ht)
  · exact congrArg VersionBumpSummary.version h3
  · exact congrArg (fun x => sortCommits x.commits) h3

/-- The module names of the summaries, up to order. -/
theorem summarize_names_perm (bumps : List VersionBump) :
    ((summarizeVersionBumpsByModule bumps).map (fun s => s.module)).Perm
      ((buildSummaries bumps).map (fun s => s.module)) := by
  have h := (summarize_perm_buildMap bumps).map (fun s => s.module)
  simpa [List.map_map, Function.comp] using h

/-- The summaries carry pairwise distinct module names. -/
theorem summarize_names_nodup (bumps : List VersionBump) :
    ((summarizeVersionBumpsByModule bumps).map (fun s => s.module)).Nodup :=
  (summarize_names_perm bumps).nodup_iff.mpr (buildSummaries_nodup bumps)

/-- The summaries are sorted by module name, ascending. -/
theorem summarize_names_sorted (bumps : List VersionBump) :
    ((summarizeVersionBumpsByModule bumps).map (fun s => s.module)).Sorted (· ≤ ·) := by
  have hs : (summarizeVersionBumpsByModule bumps).Sorted modLe :=
    List.sorted_insertionSort modLe _
  exact List.Pairwise.map _ (fun a b hab => hab) hs

/-- A module gets a summary exactly when some bump targets it. -/
theorem summarize_names_mem (bumps : List VersionBump) (m : String) :
    m ∈ (summarizeVersionBumpsByModule bumps).map (fun s => s.module) ↔
      bumpsFor bumps m ≠ [] := by
  rw [(summarize_names_perm bumps).mem_iff]
  exact mem_names_iff bumps m

/-- `maxVersion` is right-commutative as a fold step. -/
theorem maxVersion_right_comm (a b c : VersionUpdate) :
    maxVersion (maxVersion a b) c = maxVersion (maxVersion a c) b := by
  cases a <;> cases b <;> cases c <;> rfl

/-- Folding `maxVersion` is invariant under permutations of the list. -/
theorem foldl_maxVersion_perm {l1 l2 : List VersionUpdate} (h : l1.Perm l2) :
    ∀ a, l1.foldl maxVersion a = l2.foldl maxVersion a := by
  induction h with
  | nil => intro a; rfl
  | cons x h ih => intro a; simp only [List.foldl_cons]; exact ih _
  | swap x y l =>
    intro a
    simp only [List.foldl_cons]
    rw [maxVersion_right_comm]
  | trans h1 h2 ih1 ih2 => intro a; exact (ih1 a).trans (ih2 a)

/-- The aggregated severity only depends on the multiset of bumps. -/
theorem aggVersion_perm {f g : List VersionBump} (h : f.Perm g) :
    aggVersion f = aggVersion g := by
  unfold aggVersion
  exact foldl_maxVersion_perm (h.map (fun b => b.version)) .patch

/-- Stability of `orderedInsert` per priority class: inserting an element
prepends it to its own class's filter and leaves the other classes untouched. -/
theorem filter_key_orderedInsert (k : Int) (a : CommitWithTag) (l : List CommitWithTag) :
    (List.orderedInsert priLe a l).filter (fun c => tagPriority c.tag == k)
      = if tagPriority a.tag == k
          then a :: l.filter (fun c => tagPriority c.tag == k)
          else l.filter (fun c => tagPriority c.tag == k) := by
  induction l with
  | nil =>
    by_cases hk : tagPriority a.tag == k <;> simp [List.orderedInsert, hk]
  | cons b t ih =>
    by_cases hle : priLe a b
    · rw [List.orderedInsert, if_pos hle]
      by_cases hk : tagPriority a.tag == k <;> simp [List.filter_cons, hk]
    · rw [List.orderedInsert, if_neg hle]
      have hba : tagPriority b.tag < tagPriority a.tag := by
        simp only [priLe] at hle
        omega
      by_cases hbk : tagPriority b.tag == k
      · have hak : ¬ (tagPriority a.tag == k) := by
          simp only [beq_iff_eq] at hbk ⊢
          omega
        simp [List.filter_cons, hbk, hak, ih]
      · by_cases hk : tagPriority a.tag == k <;> simp [List.filter_cons, hbk, hk, ih]

/-- Stability of the insertion sort per priority class. -/
theorem filter_key_sortCommits (k : Int) (l : List CommitWithTag) :
    (sortCommits l).filter (fun c => tagPriority c.tag == k)
      = l.filter (fun c => tagPriority c.tag == k) := by
  induction l with
  | nil => rfl
  | cons a t ih =>
    show (List.orderedInsert priLe a (List.insertionSort priLe t)).filter _ = _
    rw [filter_key_orderedInsert]
    simp only [sortCommits] at ih
    by_cases hk : tagPriority a.tag == k <;> simp [List.filter_cons, hk, ih]

/-- C5 (amended): in every summary produced by `summarizeVersionBumpsByModule`
the commits list is sorted by ascending tag priority in the fixed order
BREAKING, feat, deprecation, fix, perf, docs, style, refactor, test, chore,
with every commit whose tag is NOT in that table (priority -1) placed before
all known-tag commits, and each priority class (in particular the unknown-tag
class) keeps the input order of that module's commits. -/
theorem summarize_commits_sorted {bumps : List VersionBump} {s : VersionBumpSummary}
    (h : s ∈ summarizeVersionBumpsByModule bumps) :
    s.commits.Pairwise priLe ∧
    (∀ k : Int, s.commits.filter (fun c => tagPriority c.tag == k)
      = ((bumpsFor bumps s.module).map mkCT).filter (fun c => tagPriority c.tag == k)) := by
  obtain ⟨hne, hv, hc⟩ := mem_summarize h
  rw [hc]
  constructor
  · exact List.sorted_insertionSort priLe _
  · intro k
    exact filter_key_sortCommits k _

/-- Witness for C5's theorem: a two-commit module, with the unknown tag
"weird" sorted in front of the known tag "fix". -/
theorem summarize_commits_sorted_witness :
    (⟨"m", .major, [⟨"s1", "", "h1", "weird"⟩, ⟨"s2", "", "h2", "fix"⟩]⟩ : VersionBumpSummary)
      ∈ summarizeVersionBumpsByModule
          [⟨"m", "fix", ⟨"s2", "", "h2"⟩, .patch⟩, ⟨"m", "weird", ⟨"s1", "", "h1"⟩, .major⟩] ∧
    ([⟨"s1", "", "h1", "weird"⟩, ⟨"s2", "", "h2", "fix"⟩] : List CommitWithTag).Pairwise priLe := by
  have hmem : (⟨"m", .major, [⟨"s1", "", "h1", "weird"⟩, ⟨"s2", "", "h2", "fix"⟩]⟩ : VersionBumpSummary)
      ∈ summarizeVersionBumpsByModule
          [⟨"m", "fix", ⟨"s2", "", "h2"⟩, .patch⟩, ⟨"m", "weird", ⟨"s1", "", "h1"⟩, .major⟩] := by
    decide
  exact ⟨hmem, (summarize_commits_sorted hmem).1⟩

/-- C5 counterexample: with input order [fix-commit, weird-commit] the sorted
commits come out as [weird, fix] -- the commit whose tag is absent from the
priority table is placed BEFORE the known-tag commit, not after it as the
claim states. -/
theorem summarize_unknown_tag_first_counterexample :
    ("weird" ∉ TAG_PRIORITY) ∧ ("fix" ∈ TAG_PRIORITY) ∧
    (summarizeVersionBumpsByModule
        [⟨"m", "fix", ⟨"s2", "", "h2"⟩, .patch⟩, ⟨"m", "weird", ⟨"s1", "", "h1"⟩, .major⟩]).map
      (fun s => s.commits.map (fun c => c.tag)) = [["weird", "fix"]] := by decide

/-- C6 (amended): `summarizeVersionBumpsByModule` is order-independent up to
the order of equal-priority commits: permuting the input intents yields the
same module-name list (in the same sorted order), and for summaries of the
same module the same aggregated version and commit lists that are permutations
of each other. The exact commit order is NOT preserved when two commits share
a tag priority (see the counterexample). -/
theorem summarize_perm_invariant (l1 l2 : List VersionBump) (hp : l1.Perm l2) :
    (summarizeVersionBumpsByModule l1).map (fun s => s.module)
      = (summarizeVersionBumpsByModule l2).map (fun s => s.module) ∧
    (∀ s1 s2, s1 ∈ summarizeVersionBumpsByModule l1 →
      s2 ∈ summarizeVersionBumpsByModule l2 → s1.module = s2.module →
      s1.version = s2.version ∧ s1.commits.Perm s2.commits) := by
  have hfil : ∀ m : String, (bumpsFor l1 m).Perm (bumpsFor l2 m) := by
    intro m
    unfold bumpsFor
    exact hp.filter _
  constructor
  · have hmem : ∀ m, m ∈ (summarizeVersionBumpsByModule l1).map (fun s => s.module) ↔
        m ∈ (summarizeVersionBumpsByModule l2).map (fun s => s.module) := by
      intro m
      rw [summarize_names_mem, summarize_names_mem]
      constructor
      · intro h1 h2
        exact h1 (List.Perm.eq_nil (h2 ▸ hfil m))
      · intro h2 h1
        exact h2 (List.Perm.eq_nil (h1 ▸ (hfil m).symm))
    have hperm : ((summarizeVersionBumpsByModule l1).map (fun s => s.module)).Perm
        ((summarizeVersionBumpsByModule l2).map (fun s => s.module)) := by
      rw [List.perm_iff_count]
      intro a
      by_cases ha : a ∈ (summarizeVersionBumpsByModule l1).map (fun s => s.module)
      · rw [List.count_eq_one_of_mem (summarize_names_nodup l1) ha,
          List.count_eq_one_of_mem (summarize_names_nodup l2) ((hmem a).mp ha)]
      · rw [List.count_eq_zero_of_not_mem ha,
          List.count_eq_zero_of_not_mem (fun hb => ha ((hmem a).mpr hb))]
    exact List.eq_of_perm_of_sorted hperm (summarize_names_sorted l1)
      (summarize_names_sorted l2)
  · intro s1 s2 h1 h2 hm
    obtain ⟨hne1, hv1, hc1⟩ := mem_summarize h1
    obtain ⟨hne2, hv2, hc2⟩ := mem_summarize h2
    constructor
    · rw [hv1, hv2, ← hm]
      exact aggVersion_perm (hfil s1.module)
    · rw [hc1, hc2, ← hm]
      have hX : ((bumpsFor l1 s1.module).map mkCT).Perm ((bumpsFor l2 s1.module).map mkCT) :=
        (hfil s1.module).map mkCT
      exact ((List.perm_insertionSort priLe _).trans hX).trans
        (List.perm_insertionSort priLe _).symm

/-- Witness for C6's theorem at a concrete two-element swap. -/
theorem summarize_perm_invariant_witness :
    (summarizeVersionBumpsByModule
        [⟨"a", "fix", ⟨"s1", "", "h1"⟩, .patch⟩, ⟨"b", "feat", ⟨"s2", "", "h2"⟩, .minor⟩]).map
      (fun s => s.module)
      = (summarizeVersionBumpsByModule
          [⟨"b", "feat", ⟨"s2", "", "h2"⟩, .minor⟩, ⟨"a", "fix", ⟨"s1", "", "h1"⟩, .patch⟩]).map
        (fun s => s.module) :=
  (summarize_perm_invariant _ _
    (List.Perm.swap ⟨"b", "feat", ⟨"s2", "", "h2"⟩, .minor⟩
      ⟨"a", "fix", ⟨"s1", "", "h1"⟩, .patch⟩ [])).1

/-- C6 counterexample: two same-module same-tag commits; swapping them in the
input swaps them in the output commits list, so the outputs are not identical
even though the inputs are permutations of each other. -/
theorem summarize_not_order_independent :
    ([⟨"m", "fix", ⟨"s1", "", "h1"⟩, .patch⟩, ⟨"m", "fix", ⟨"s2", "", "h2"⟩, .patch⟩]
        : List VersionBump).Perm
      [⟨"m", "fix", ⟨"s2", "", "h2"⟩, .patch⟩, ⟨"m", "fix", ⟨"s1", "", "h1"⟩, .patch⟩] ∧
    summarizeVersionBumpsByModule
        [⟨"m", "fix", ⟨"s1", "", "h1"⟩, .patch⟩, ⟨"m", "fix", ⟨"s2", "", "h2"⟩, .patch⟩]
      ≠ summarizeVersionBumpsByModule
        [⟨"m", "fix", ⟨"s2", "", "h2"⟩, .patch⟩, ⟨"m", "fix", ⟨"s1", "", "h1"⟩, .patch⟩] :=
  ⟨List.Perm.swap _ _ _, by decide⟩

/-- C9: a version renders as the compare link
`[version](https://github.com/repo/compare/fromTag...toTag)` exactly when a
GitHub repository is configured (non-empty) and both tags are non-empty, and
as plain version text otherwise; and each commit renders as the line
`- subject` followed, exactly when a repository is configured, by a link whose
display text is the first 7 characters of the hash and whose target contains
the full hash. -/
theorem format_release_note_links
    (version : String) (repo fromTag toTag : Option String)
    (commits : List CommitWithTag) :
    (githubRepoConfigured repo ∧ tagAvailable fromTag ∧ tagAvailable toTag →
      formatVersionWithLink version repo fromTag toTag
        = specCompareLink version (repo.getD "") (fromTag.getD "") (toTag.getD "")) ∧
    (¬ (githubRepoConfigured repo ∧ tagAvailable fromTag ∧ tagAvailable toTag) →
      formatVersionWithLink version repo fromTag toTag = version) ∧
    (∀ d : CommitWithTag, commitLine d repo = specCommitLine d repo) ∧
    (githubRepoConfigured repo →
      ∀ d : CommitWithTag, ∃ p q : String, commitLine d repo = p ++ (d.hash ++ q)) ∧
    (formatCommitList commits repo
      = String.join (commits.map (fun d => specCommitLine d repo))) := by
  have hcfg : ∀ r : Option String, githubRepoConfigured r = jsTruthy r := by
    intro r; cases r <;> rfl
  have htag : ∀ t : Option String, tagAvailable t = jsTruthy t := by
    intro t; cases t <;> rfl
  have hline : ∀ d : CommitWithTag, commitLine d repo = specCommitLine d repo := by
    intro d
    rw [commitLine, specCommitLine, hcfg]
  refine ⟨?_, ?_, hline, ?_, ?_⟩
  · intro h
    obtain ⟨h1, h2, h3⟩ := h
    rw [hcfg] at h1
    rw [htag] at h2 h3
    rw [formatVersionWithLink, specCompareLink, if_pos]
    simp [h1, h2, h3]
  · intro h
    rw [hcfg, htag, htag] at h
    rw [formatVersionWithLink, if_neg]
    intro hcon
    simp only [Bool.and_eq_true] at hcon
    exact h ⟨hcon.1.1, hcon.1.2, hcon.2⟩
  · intro h1 d
    rw [hcfg] at h1
    refine ⟨"- " ++ d.subject ++ " ([" ++ String.mk (d.hash.data.take 7)
      ++ "](https://github.com/" ++ repo.getD "" ++ "/commit/", "))" ++ "\n", ?_⟩
    rw [commitLine]
    simp [h1, String.append_assoc]
  · rw [formatCommitList]
    rw [funext hline]

/-- Witness for C9's theorem: a configured repository with both tags yields
the compare link, an unconfigured one the plain version; a commit line with a
configured repository shows the 7-character short hash and links the full
hash. -/
theorem format_release_note_links_witness :
    formatVersionWithLink "1.1.0" (some "owner/repo") (some "v1.0.0") (some "v1.1.0")
      = "[1.1.0](https://github.com/owner/repo/compare/v1.0.0...v1.1.0)" ∧
    formatVersionWithLink "1.1.0" none (some "v1.0.0") (some "v1.1.0") = "1.1.0" ∧
    commitLine ⟨"fix: a", "", "0123456789abcdef", "fix"⟩ (some "owner/repo")
      = "- fix: a ([0123456](https://github.com/owner/repo/commit/0123456789abcdef))\n" := by
  refine ⟨?_, ?_, ?_⟩
  · exact ((format_release_note_links "1.1.0" (some "owner/repo") (some "v1.0.0")
      (some "v1.1.0") []).1 (by decide)).trans (by decide)
  · exact ((format_release_note_links "1.1.0" none (some "v1.0.0")
      (some "v1.1.0") []).2.1 (by decide)).trans (by decide)
  · exact ((format_release_note_links "x" (some "owner/repo") none none []).2.2.1
      ⟨"fix: a", "", "0123456789abcdef", "fix"⟩).trans (by decide)

end Bump

